import Mathlib

/-!
Verification of the document-analysis pipeline of the `ultimate` repository
(backend/utils/file_utils.py and backend/analysis/analysis.py) against its
natural-language specification.

The embedding below is a shallow model of the Python source.  External
services (the sentence-embedding model, the ChromaDB vector store, the
OpenAI completion endpoint, the file system and `json.loads`) are modelled
as explicit parameters; everything that is repository code is translated
function by function.

A central fact used throughout the segmenter model: the sentence-splitting
pattern on line 44 of backend/utils/file_utils.py,

  r'(?<![0-9]|[A-Za-z]\.[A-Za-z]|Nr|Abs|Art|Str|Dr|Prof|bzw|[0-9])\.\s+(?=[A-ZÄÖÜ])'

is rejected by Python's `re` module: the look-behind alternation mixes
branch widths 1, 3, 2, 3, 3, 3, 2, 4, 3 and 1, and CPython's `re` (all
released versions, e.g. 3.11) raises
`re.error: look-behind requires fixed-width pattern` when the pattern is
first compiled inside `re.finditer`.  The whole body of
`split_text_into_sections` sits in one `try:` block, so for every input
with at least one non-blank paragraph the first `re.finditer` call raises
and control reaches the `except` handler on line 89, which runs the
fallback splitter (lines 92-112).  For inputs with no non-blank paragraph
the `try:` body completes and returns `[]`, which is also exactly what the
fallback returns on such inputs.  Hence the observable behaviour of
`split_text_into_sections` is the early-return-on-empty guard plus the
fallback algorithm, and that is what is embedded here.
-/

namespace Ultimate

/-- Characters matched by Python's `\s` (Unicode mode, the default for
`str` patterns) and stripped by `str.strip()`: the ASCII whitespace and
control range plus the Unicode space separators.  Both library behaviours
agree on this set for every character that can appear in the repository's
data. -/
def isPySpace (c : Char) : Bool :=
  let n := c.toNat
  n == 0x20 || n == 0x09 || n == 0x0a || n == 0x0d || n == 0x0b || n == 0x0c ||
  n == 0x1c || n == 0x1d || n == 0x1e || n == 0x1f || n == 0x85 || n == 0xa0 ||
  n == 0x1680 || (0x2000 ≤ n && n ≤ 0x200a) || n == 0x2028 || n == 0x2029 ||
  n == 0x202f || n == 0x205f || n == 0x3000

/-- Python `str.strip()`: drop leading and trailing whitespace. -/
def pyStrip (cs : List Char) : List Char :=
  ((cs.dropWhile isPySpace).reverse.dropWhile isPySpace).reverse

/-- The character class `[A-ZÄÖÜ]` of the fallback pattern on line 99 of
backend/utils/file_utils.py (the bytes in the source file are the plain
UTF-8 letters Ä, Ö, Ü). -/
def isUpperTrigger (c : Char) : Bool :=
  (0x41 ≤ c.toNat && c.toNat ≤ 0x5a) || c == 'Ä' || c == 'Ö' || c == 'Ü'

/-- Head test for the look-ahead `(?=[A-ZÄÖÜ])`. -/
def startsUpperTrigger : List Char → Bool
  | [] => false
  | c :: _ => isUpperTrigger c

/-- Whether the fallback pattern `\.\s+(?=[A-ZÄÖÜ])` matches directly
after a period whose remaining input is `rest`: a non-empty whitespace
run must follow, and the character after that run must be an uppercase
trigger.  (Greedy `\s+` with non-whitespace look-ahead succeeds exactly on
the maximal run, since a shorter run would place the look-ahead on a
whitespace character.) -/
def boundaryAfterDot (rest : List Char) : Bool :=
  !(rest.takeWhile isPySpace).isEmpty &&
    startsUpperTrigger (rest.drop ((rest.takeWhile isPySpace).length))

/-- One paragraph (`para`) of the fallback splitter, lines 98-110 of
backend/utils/file_utils.py:

  current_pos = 0
  for match in re.finditer(regex, para):
      end_pos = match.start() + 1          # include the period
      sentence = para[current_pos:end_pos].strip()
      if sentence: result.append(sentence)
      current_pos = match.end()
  if current_pos < len(para):
      last_sentence = para[current_pos:].strip()
      if last_sentence: result.append(last_sentence)

The scan is embedded left to right: `acc` holds (reversed) the characters
of the paragraph from `current_pos` up to the scan position.  At a period
with a following match, the accumulated slice plus the period is stripped
and emitted, and the matched whitespace run (`para[match.start()+1 :
match.end()]`) is consumed in `skipping` mode so that the next slice
starts at `match.end()` — the position of the uppercase trigger, which is
never itself a period or whitespace, so resuming the plain scan there is
exactly `re.finditer`'s continuation.  At the end of the paragraph the
pending slice is stripped and emitted if non-empty, which also covers the
`current_pos < len(para)` guard (an empty pending slice strips to empty
and is dropped either way). -/
def splitLineAux (skipping : Bool) (acc : List Char) (cs : List Char) :
    List (List Char) :=
  match cs with
  | [] =>
      if (pyStrip acc.reverse).isEmpty then [] else [pyStrip acc.reverse]
  | c :: rest =>
      if skipping && isPySpace c then
        splitLineAux true acc rest
      else if !skipping && (c == '.' && boundaryAfterDot rest) then
        (if (pyStrip (acc.reverse ++ [c])).isEmpty then []
         else [pyStrip (acc.reverse ++ [c])]) ++ splitLineAux true [] rest
      else
        splitLineAux false (c :: acc) rest

/-- Sentence split of one paragraph by the fallback splitter. -/
def splitLine (cs : List Char) : List (List Char) :=
  splitLineAux false [] cs

/-- Python `text.split('\n')` on the character list: every newline is a
separator, `[] ↦ [[]]`. -/
def splitLines : List Char → List (List Char)
  | [] => [[]]
  | c :: rest =>
      if c == '\n' then [] :: splitLines rest
      else
        match splitLines rest with
        | [] => [[c]]
        | l :: ls => (c :: l) :: ls

/-- `split_text_into_sections` from backend/utils/file_utils.py, lines
21-112.  As explained at the top of this file, the `try:` body always
raises on its first `re.finditer` call whenever a non-blank paragraph
exists, so the function's behaviour is the `if not text: return []` guard
followed by the fallback splitter of lines 92-112.  The fallback's
`if not para.strip(): continue` is subsumed: a paragraph that strips to
empty contains no period and every candidate slice of it strips to empty,
so `splitLine` already returns `[]` for it. -/
def split_text_into_sections (text : String) : List String :=
  if text.data.isEmpty then []
  else (((splitLines text.data).map splitLine).flatten).map (fun cs => String.mk cs)

/-- The bare-number / section-marker pattern `^[0-9§]+\.?$` from line 78
of backend/utils/file_utils.py (part of the short-fragment joining step of
the dead `try:` path): one or more digits or `§`, optionally followed by a
final period. -/
def matchesSectionMarker (cs : List Char) : Bool :=
  let core := if cs.getLast? = some '.' then cs.dropLast else cs
  !core.isEmpty && core.all (fun c => c.isDigit || c == '§')

/-! ## Classifier: `RentalAnalysis.analyze_document_for_issues`

backend/analysis/analysis.py, lines 162-254.  The sentence-embedding
model together with one ChromaDB `query(..., n_results=1)` call is an
external service; it is modelled as a function from the sentence to
either an exception (`Except.error`, covering every failure of
`self.model.encode` or `collection.query`) or the nearest neighbour's
distance and document.  Distances are ChromaDB floats, modelled as
rationals: the code only ever compares them with the literal threshold 4.
-/

/-- Nearest-neighbour answer for one query: `distances[0][0]` and
`documents[0][0]` of the ChromaDB result. -/
structure QueryHit where
  distance : ℚ
  document : String
deriving DecidableEq, Repr

/-- The external collaborators of `analyze_document_for_issues`: the
nearest-neighbour lookup against `sample_agreement` and against
`minimal_requirements` (each including the embedding step that the code
performs first; an error in the shared embedding step is an error in
both). -/
structure AnalysisEnv where
  sampleQuery : String → Except String QueryHit
  minimalQuery : String → Except String QueryHit

/-- The `category` value of one result entry.  In the Python source this
field is heterogeneous: the two sentinel entries (lines 182-184 and
248-252) store the plain string `"fehlend"`, while every entry built in
the main loop stores a list of strings. -/
inductive CategoryField where
  | single : String → CategoryField
  | list : List String → CategoryField
deriving DecidableEq, Repr

/-- One element of the `results` list (a Python dict).  The two distance /
closest-document pairs are present only in entries produced by the main
loop for classified sentences; `none` models an absent key. -/
structure ResultEntry where
  text : String
  category : CategoryField
  description : String
  sample_distance : Option ℚ
  closest_sample : Option String
  minimal_distance : Option ℚ
  closest_minimal : Option String
deriving DecidableEq, Repr

/-- The body of the `for sentence in sentences:` loop, lines 187-244:
`none` means the iteration appended nothing (the `except` handler logs
and `continue`s).  A sentence shorter than 40 characters is passed
through with an empty category list; otherwise the two lookups run and
the category is assembled from the two independent threshold tests
(lines 218-229): axis 1 appends `"unusual"` if `sample_distance > 4`
else `"match_found"`, axis 2 then appends `"invalid"` if
`minimal_distance <= 4` else `"valid"`. -/
def processSentence (env : AnalysisEnv) (sentence : String) :
    Option ResultEntry :=
  if sentence.length < 40 then
    some ⟨sentence, CategoryField.list [], "", none, none, none, none⟩
  else
    match env.sampleQuery sentence, env.minimalQuery sentence with
    | Except.ok sh, Except.ok mh =>
        some ⟨sentence,
              CategoryField.list
                [(if 4 < sh.distance then "unusual" else "match_found"),
                 (if mh.distance ≤ 4 then "invalid" else "valid")],
              "", some sh.distance, some sh.document,
              some mh.distance, some mh.document⟩
    | _, _ => none

/-- `analyze_document_for_issues(self, sentences, ...)`, lines 162-254:
the empty-input sentinel (lines 181-184), the per-sentence loop, and the
no-results sentinel (lines 247-252).  Both sentinel entries carry the
bare string `"fehlend"` as their category, exactly as in the source
(whose literals contain the mojibake sequences `S√§tze` etc. verbatim). -/
def analyze_document_for_issues (env : AnalysisEnv)
    (sentences : List String) : List ResultEntry :=
  if sentences.isEmpty then
    [⟨"Keine S√§tze zum Analysieren gefunden.",
      CategoryField.single "fehlend",
      "Das Dokument enth√§lt keinen Text oder konnte nicht gelesen werden.",
      none, none, none, none⟩]
  else
    -- `results` of the Python loop, inlined: the list the loop builds is
    -- exactly the filterMap of the per-sentence step over `sentences`.
    if (sentences.filterMap (processSentence env)).isEmpty then
      [⟨"Keine problematischen Klauseln gefunden.",
        CategoryField.single "fehlend",
        "Der Mietvertrag enth√§lt keine offensichtlich problematischen Bestimmungen.",
        none, none, none, none⟩]
    else sentences.filterMap (processSentence env)

/-! ## Reference corpora loader: `RentalAnalysis._populate_collection`

backend/analysis/analysis.py, lines 84-145.  File existence, text
extraction and segmentation are summarised per sample file as an
`Option (List String)`: `none` when the file is missing (line 100) or
`extract_text` / `split_text_into_sections` raised (line 113), and
`some clauses` for a successful extraction (possibly the empty list).
The function below returns `all_sample_clauses` as finally embedded into
the collection, i.e. the list of documents added by the loop on lines
135-143. -/

/-- The hard-coded fallback clauses for `minimal_requirements`,
lines 120-124 (source literals, mojibake included). -/
def minimalRequirementsDefaults : List String :=
  ["Der Mietvertrag muss die genaue Anschrift der Wohnung enthalten.",
   "Die Namen und Anschriften aller Mietparteien m√ºssen angegeben sein.",
   "Die monatliche Mieth√∂he muss klar festgelegt sein."]

/-- The hard-coded fallback clauses for `sample_agreement`,
lines 126-129 (source literals, mojibake included). -/
def sampleAgreementDefaults : List String :=
  ["¬ß1 Mietr√§ume: Der Vermieter vermietet an den Mieter zu Wohnzwecken die Wohnung.",
   "¬ß2 Mietdauer: Das Mietverh√§ltnis beginnt am 01.01.2023."]

/-- `_populate_collection(self, collection, collection_name, sample_files)`:
the clauses collected from the per-file extractions, with the default set
substituted when the combined list is empty (lines 117-129). -/
def populate_collection (collection_name : String)
    (extracted : List (Option (List String))) : List String :=
  -- `all_sample_clauses` (the loop of lines 96-114), inlined.
  if ((extracted.filterMap id).flatten).isEmpty then
    if collection_name == "minimal_requirements" then
      minimalRequirementsDefaults
    else
      sampleAgreementDefaults
  else (extracted.filterMap id).flatten

/-! ## Essentials extractor: `RentalAnalysis.analyze_essentials`

backend/analysis/analysis.py, lines 256-335.  The OpenAI chat call is an
external service: `Except.error e` models any exception escaping
`openai.chat.completions.create` (timeout, auth, quota — caught by the
outer handler on line 329), `Except.ok t` the returned
`response.choices[0].message.content`.  Python's `json.loads` is a
library function; it is a parameter `loads`, with `Except.error`
standing for a raised `json.JSONDecodeError` (the only exception
`json.loads` raises on a string argument, and what the inner handler on
line 319 catches). -/

/-- JSON values, as produced by `json.loads` and returned by
`analyze_essentials`; object fields keep their insertion order like
Python dicts. -/
inductive Json where
  | null : Json
  | bool : Bool → Json
  | num : ℚ → Json
  | str : String → Json
  | arr : List Json → Json
  | obj : List (String × Json) → Json
deriving Repr

/-- Top-level keys of a JSON object (and `[]` for any other value). -/
def jsonKeys : Json → List String
  | Json.obj fields => fields.map Prod.fst
  | _ => []

/-- Python `hay.find(needle)` restricted to the found case: the smallest
index at which `needle` occurs in `hay`, if any. -/
def pyFind (hay needle : List Char) : Option Nat :=
  (List.range (hay.length + 1)).foldr
    (fun i acc => if needle.isPrefixOf (hay.drop i) then some i else acc) none

/-- Python `hay.rfind(needle)` restricted to the found case: the largest
index at which `needle` occurs in `hay`, if any. -/
def pyRFind (hay needle : List Char) : Option Nat :=
  (List.range (hay.length + 1)).foldl
    (fun acc i => if needle.isPrefixOf (hay.drop i) then some i else acc) none

/-- Python slice `l[a:b]` for non-negative bounds (empty when `b ≤ a`). -/
def pySlice (l : List Char) (a b : Nat) : List Char :=
  (l.take b).drop a

/-- Lines 308-316: the string handed to `json.loads`.  When the marker
`"```json"` occurs in the response, the slice from just after the marker
up to the last occurrence of `"```"` is taken and stripped; otherwise the
raw response is parsed directly.  (`rfind` cannot miss, since
`"```json"` occurring makes `"```"` occur; the `getD 0` default is never
used.) -/
def extractJsonStr (response_text : String) : String :=
  match pyFind response_text.data ("```json".data) with
  | some idx =>
      let json_start := idx + 7
      let json_end := (pyRFind response_text.data ("```".data)).getD 0
      String.mk (pyStrip (pySlice response_text.data json_start json_end))
  | none => response_text

/-- `analyze_essentials(self, text)`, lines 256-335, as a function of its
two effects: the completion call (`service`) and JSON parsing (`loads`).
On a service failure the outer handler returns the error-status dict of
lines 331-335; on a parse failure the inner handler returns the dict of
lines 321-324 carrying the raw response; on success the parsed value is
returned unchanged (line 327). -/
def analyze_essentials (loads : String → Except String Json)
    (service : Except String String) : Json :=
  match service with
  | Except.error e =>
      Json.obj
        [("analysis",
          Json.str "Fehler bei der Analyse der wesentlichen Vertragsinhalte."),
         ("status", Json.str "error"),
         ("error", Json.str e)]
  | Except.ok response_text =>
      match loads (extractJsonStr response_text) with
      | Except.ok result => result
      | Except.error _ =>
          Json.obj
            [("error", Json.str "Invalid JSON response from OpenAI"),
             ("response", Json.str response_text)]

end Ultimate


namespace Ultimate

/-! ## Supporting lemmas: non-whitespace characters survive the segmenter -/

/-- Dropping a leading whitespace run does not change the non-whitespace
characters. -/
theorem filter_dropWhile_pySpace (l : List Char) :
    (l.dropWhile isPySpace).filter (fun c => !isPySpace c)
      = l.filter (fun c => !isPySpace c) := by
  induction l with
  | nil => rfl
  | cons c t ih =>
      by_cases h : isPySpace c = true
      · simp [List.dropWhile_cons, h, List.filter_cons, ih]
      · simp [List.dropWhile_cons, h]

/-- `str.strip()` does not change the non-whitespace characters. -/
theorem filter_pyStrip (l : List Char) :
    (pyStrip l).filter (fun c => !isPySpace c)
      = l.filter (fun c => !isPySpace c) := by
  unfold pyStrip
  rw [List.filter_reverse, filter_dropWhile_pySpace, List.filter_reverse,
    List.reverse_reverse, filter_dropWhile_pySpace]

/-- Splitting a filtered append between the head and the tail of the
right-hand list. -/
theorem filter_append_cons (f : Char → Bool) (xs : List Char) (c : Char)
    (rest : List Char) :
    (xs ++ c :: rest).filter f = (xs ++ [c]).filter f ++ rest.filter f := by
  rw [show xs ++ c :: rest = (xs ++ [c]) ++ rest by simp, List.filter_append]

/-- Invariant of the paragraph scan: the emitted sentences carry exactly
the non-whitespace characters of the pending slice plus the unscanned
input, in order. -/
theorem splitLineAux_filter (cs : List Char) : ∀ (skipping : Bool) (acc : List Char),
    ((splitLineAux skipping acc cs).flatten).filter (fun c => !isPySpace c)
      = (acc.reverse ++ cs).filter (fun c => !isPySpace c) := by
  induction cs with
  | nil =>
      intro skipping acc
      by_cases h : (pyStrip acc.reverse).isEmpty
      · have h0 : pyStrip acc.reverse = [] := List.isEmpty_iff.mp h
        have := filter_pyStrip acc.reverse
        rw [h0] at this
        simp [splitLineAux, h, ← this]
      · simp [splitLineAux, h, filter_pyStrip]
  | cons c rest ih =>
      intro skipping acc
      cases skipping with
      | true =>
          by_cases hsp : isPySpace c = true
          · rw [show splitLineAux true acc (c :: rest) = splitLineAux true acc rest by
              simp [splitLineAux, hsp]]
            rw [ih true acc]
            simp [List.filter_append, List.filter_cons, hsp]
          · rw [show splitLineAux true acc (c :: rest)
                  = splitLineAux false (c :: acc) rest by
              simp [splitLineAux, hsp]]
            rw [ih false (c :: acc)]
            simp [List.filter_append, List.reverse_cons]
      | false =>
          by_cases hb : (c == '.' && boundaryAfterDot rest) = true
          · rw [show splitLineAux false acc (c :: rest)
                  = (if (pyStrip (acc.reverse ++ [c])).isEmpty then []
                     else [pyStrip (acc.reverse ++ [c])]) ++ splitLineAux true [] rest by
              simp [splitLineAux, hb]]
            rw [List.flatten_append, List.filter_append, ih true []]
            by_cases he : (pyStrip (acc.reverse ++ [c])).isEmpty
            · have h0 : pyStrip (acc.reverse ++ [c]) = [] := List.isEmpty_iff.mp he
              have hf := filter_pyStrip (acc.reverse ++ [c])
              rw [h0] at hf
              have hnil : (acc.reverse ++ [c]).filter (fun c => !isPySpace c) = [] := by
                simpa using hf.symm
              rw [List.filter_append] at hnil
              rw [if_pos he]
              by_cases hc : isPySpace c = true <;>
                simp_all [List.filter_append, List.filter_cons]
            · rw [if_neg he]
              simp only [List.flatten_cons, List.flatten_nil, List.append_nil,
                List.nil_append, List.reverse_nil]
              rw [filter_pyStrip]
              by_cases hc : isPySpace c = true <;>
                simp [hc, List.filter_append, List.filter_cons]
          · rw [show splitLineAux false acc (c :: rest)
                  = splitLineAux false (c :: acc) rest by
              simp [splitLineAux, hb]]
            rw [ih false (c :: acc)]
            simp [List.filter_append, List.reverse_cons]

/-- The sentences of one paragraph carry exactly its non-whitespace
characters, in order. -/
theorem splitLine_filter (cs : List Char) :
    ((splitLine cs).flatten).filter (fun c => !isPySpace c)
      = cs.filter (fun c => !isPySpace c) := by
  simpa using splitLineAux_filter cs false []

/-- `text.split('\n')` never returns the empty list. -/
theorem splitLines_ne_nil (cs : List Char) : splitLines cs ≠ [] := by
  cases cs with
  | nil => simp [splitLines]
  | cons c rest =>
      by_cases h : (c == '\n') = true
      · simp [splitLines, h]
      · cases hsl : splitLines rest with
        | nil => simp [splitLines, h, hsl]
        | cons l ls => simp [splitLines, h, hsl]

/-- Rejoining the lines loses only newline characters, which are
whitespace. -/
theorem splitLines_flatten_filter (cs : List Char) :
    ((splitLines cs).flatten).filter (fun c => !isPySpace c)
      = cs.filter (fun c => !isPySpace c) := by
  induction cs with
  | nil => rfl
  | cons c rest ih =>
      by_cases h : (c == '\n') = true
      · have hc : c = '\n' := by simpa [beq_iff_eq] using h
        have hsp : isPySpace c = true := by rw [hc]; decide
        simp [splitLines, h, List.filter_cons, hsp, ih]
      · cases hsl : splitLines rest with
        | nil => exact absurd hsl (splitLines_ne_nil rest)
        | cons l ls =>
            rw [show splitLines (c :: rest) = (c :: l) :: ls by
              simp [splitLines, h, hsl]]
            have ih' : ((l :: ls).flatten).filter (fun c => !isPySpace c)
                = rest.filter (fun c => !isPySpace c) := by rw [← hsl]; exact ih
            simp only [List.flatten_cons, List.cons_append, List.filter_cons] at ih' ⊢
            by_cases hsp : isPySpace c = true <;> simp [hsp, ih']

/-- Splitting every line into sentences and flattening keeps exactly the
non-whitespace characters of the flattened lines. -/
theorem map_splitLine_filter (lines : List (List Char)) :
    (((lines.map splitLine).flatten).flatten).filter (fun c => !isPySpace c)
      = (lines.flatten).filter (fun c => !isPySpace c) := by
  induction lines with
  | nil => rfl
  | cons l ls ih =>
      simp only [List.map_cons, List.flatten_cons, List.flatten_append,
        List.filter_append]
      rw [splitLine_filter, ih]

end Ultimate

namespace Ultimate

/-- A paragraph that contains no period is never split: the scan stays in
the plain branch and emits the single stripped slice (or nothing when the
slice is all whitespace). -/
theorem splitLineAux_no_dot (cs : List Char) : ∀ acc : List Char, '.' ∉ cs →
    splitLineAux false acc cs =
      (if (pyStrip (acc.reverse ++ cs)).isEmpty then []
       else [pyStrip (acc.reverse ++ cs)]) := by
  induction cs with
  | nil => intro acc _; simp [splitLineAux]
  | cons c rest ih =>
      intro acc h
      have hc : ¬ (c == '.') = true := by
        simp only [beq_iff_eq]
        intro he
        exact h (he ▸ List.mem_cons_self c rest)
      have hrest : '.' ∉ rest := fun hm => h (List.mem_cons_of_mem c hm)
      rw [show splitLineAux false acc (c :: rest)
            = splitLineAux false (c :: acc) rest by
        simp [splitLineAux, hc]]
      rw [ih (c :: acc) hrest]
      simp [List.reverse_cons, List.append_assoc]

/-- A text without newline characters is a single paragraph. -/
theorem splitLines_no_newline (cs : List Char) (h : '\n' ∉ cs) :
    splitLines cs = [cs] := by
  induction cs with
  | nil => rfl
  | cons c rest ih =>
      have hc : ¬ (c == '\n') = true := by
        simp only [beq_iff_eq]
        intro he
        exact h (he ▸ List.mem_cons_self c rest)
      have hrest : '\n' ∉ rest := fun hm => h (List.mem_cons_of_mem c hm)
      simp [splitLines, hc, ih hrest]

/-- C3, counterexample.  The claim quantifies over every non-empty input
text, but the single-space input is non-empty and the segmenter returns
the empty sequence for it (the only paragraph strips to empty and is
dropped), so the claimed non-empty output fails. -/
theorem segmenter_whitespace_input_counterexample :
    (" " : String) ≠ "" ∧ split_text_into_sections " " = [] := by
  exact ⟨by decide, by decide⟩

/-- C3 (amended): for every input text containing at least one
non-whitespace character, `split_text_into_sections` returns a non-empty
list of segments, and the concatenation of the segments carries exactly
the input's non-whitespace characters in their original order (in
particular no character is silently lost; the always-taken fallback path
injects no punctuation). -/
theorem segmenter_preserves_nonspace (text : String)
    (h : ∃ c ∈ text.data, isPySpace c = false) :
    split_text_into_sections text ≠ [] ∧
    (((split_text_into_sections text).map String.data).flatten).filter
        (fun c => !isPySpace c)
      = text.data.filter (fun c => !isPySpace c) := by
  obtain ⟨c0, hc0, hns⟩ := h
  have hne : ¬ text.data.isEmpty = true := by
    cases htd : text.data with
    | nil => rw [htd] at hc0; exact absurd hc0 (List.not_mem_nil c0)
    | cons a l => simp [htd]
  have hfilter_ne : text.data.filter (fun c => !isPySpace c) ≠ [] := by
    intro hF
    have hmem : c0 ∈ text.data.filter (fun c => !isPySpace c) :=
      List.mem_filter.mpr ⟨hc0, by simp [hns]⟩
    rw [hF] at hmem
    exact absurd hmem (List.not_mem_nil c0)
  have hmapdata :
      (((((splitLines text.data).map splitLine).flatten).map
          (fun cs => String.mk cs)).map String.data)
        = ((splitLines text.data).map splitLine).flatten := by
    rw [List.map_map]
    have hid : (String.data ∘ fun cs => String.mk cs) = id := funext fun l => rfl
    rw [hid, List.map_id]
  unfold split_text_into_sections
  rw [if_neg hne]
  refine ⟨?_, ?_⟩
  · intro hnil
    apply hfilter_ne
    have hflat : ((splitLines text.data).map splitLine).flatten = [] := by
      have := congrArg (List.map String.data) hnil
      rwa [hmapdata, List.map_nil] at this
    rw [← splitLines_flatten_filter, ← map_splitLine_filter, hflat]
    rfl
  · rw [hmapdata, map_splitLine_filter, splitLines_flatten_filter]

/-- C3, witness: a concrete text with visible characters is segmented
into a non-empty list that keeps all its non-whitespace characters. -/
theorem segmenter_preserves_nonspace_witness :
    split_text_into_sections "Hallo Welt." ≠ [] ∧
    (((split_text_into_sections "Hallo Welt.").map String.data).flatten).filter
        (fun c => !isPySpace c)
      = "Hallo Welt.".data.filter (fun c => !isPySpace c) :=
  segmenter_preserves_nonspace "Hallo Welt." (by decide)

/-- C4.  Code-bug evidence: the short-fragment joining step (lines 71-87
of backend/utils/file_utils.py) is dead code because the `try:` body
raises before reaching it, so the fragment `"12."` — which matches the
code's own bare-number/section-marker pattern `^[0-9§]+\.?$` — is emitted
as an independent segment instead of being concatenated onto the
following fragment.  The specific example of the claim does hold: the
input `"§3 Die Miete beträgt 750 EUR."` contains no sentence boundary
and comes back as one full segment. -/
theorem section_marker_orphan_emitted :
    split_text_into_sections "12. Alles gut." = ["12.", "Alles gut."] ∧
    matchesSectionMarker "12.".data = true ∧
    split_text_into_sections "§3 Die Miete beträgt 750 EUR."
      = ["§3 Die Miete beträgt 750 EUR."] := by
  exact ⟨by decide, by decide, by decide⟩

/-- C5, counterexample.  The claim's negative exception list is never
applied (the abbreviation `"Nr."` does terminate a sentence), and a
question mark followed by whitespace and an uppercase letter is not a
sentence boundary. -/
theorem boundary_heuristic_counterexample :
    split_text_into_sections "Nr. Alles gut." = ["Nr.", "Alles gut."] ∧
    split_text_into_sections "Geht das? Ja." = ["Geht das? Ja."] := by
  exact ⟨by decide, by decide⟩

/-- Dropping as many characters as the matching prefix is the same as
dropping the matching prefix. -/
theorem drop_takeWhile_length (p : Char → Bool) (l : List Char) :
    l.drop ((l.takeWhile p).length) = l.dropWhile p := by
  induction l with
  | nil => rfl
  | cons c t ih =>
      by_cases h : p c = true
      · simp [List.takeWhile_cons, List.dropWhile_cons, h, ih]
      · simp [List.takeWhile_cons, List.dropWhile_cons, h]

/-- An uppercase trigger is never the period character. -/
theorem upperTrigger_ne_dot (c : Char) (h : isUpperTrigger c = true) :
    (c == '.') = false := by
  cases hcc : c == '.' with
  | false => rfl
  | true =>
      have hc : c = '.' := by simpa [beq_iff_eq] using hcc
      rw [hc] at h
      exact absurd h (by decide)

/-- Resuming the scan in whitespace-skipping mode is the same as
restarting the plain scan after the whitespace run, provided the first
character after the run is an uppercase trigger (as it is after every
matched boundary; a trigger is neither whitespace nor a period). -/
theorem splitLineAux_skip (rest : List Char)
    (h : startsUpperTrigger (rest.dropWhile isPySpace) = true) :
    splitLineAux true [] rest = splitLineAux false [] (rest.dropWhile isPySpace) := by
  induction rest with
  | nil => rfl
  | cons c rest' ih =>
      by_cases hc : isPySpace c = true
      · rw [List.dropWhile_cons, if_pos hc] at h ⊢
        rw [show splitLineAux true [] (c :: rest') = splitLineAux true [] rest' by
          simp [splitLineAux, hc]]
        exact ih h
      · rw [List.dropWhile_cons, if_neg hc] at h ⊢
        have hup : isUpperTrigger c = true := by
          simpa [startsUpperTrigger] using h
        have hcd : (c == '.') = false := upperTrigger_ne_dot c hup
        rw [show splitLineAux true [] (c :: rest') = splitLineAux false [c] rest' by
          simp [splitLineAux, hc]]
        rw [show splitLineAux false [] (c :: rest') = splitLineAux false [c] rest' by
          simp [splitLineAux, hcd]]

/-- Modelled from the amended claim's words: the first sentence boundary
of a paragraph.  A boundary is an occurrence of a period followed by a
non-empty whitespace run followed by one of the uppercase letters `A`-`Z`,
`Ä`, `Ö`, `Ü` (the test `c == '.' && boundaryAfterDot rest`) — the test
looks only at the period and what follows it, never at the characters
before it (no exception list), and no character other than the period (in
particular neither `?` nor `!`) starts a boundary.  Returns the piece up
to and including the period, and the remainder after the whitespace
run. -/
def specFirstBoundary : List Char → Option (List Char × List Char)
  | [] => none
  | c :: rest =>
      if c == '.' && boundaryAfterDot rest then
        some ([c], rest.dropWhile isPySpace)
      else
        match specFirstBoundary rest with
        | none => none
        | some (l, r) => some (c :: l, r)

/-- The remainder returned with a first boundary is strictly shorter than
the paragraph. -/
theorem specFirstBoundary_shrinks : ∀ (cs l r : List Char),
    specFirstBoundary cs = some (l, r) → r.length < cs.length := by
  intro cs
  induction cs with
  | nil => intro l r h; simp [specFirstBoundary] at h
  | cons c rest ih =>
      intro l r h
      by_cases hb : (c == '.' && boundaryAfterDot rest) = true
      · rw [show specFirstBoundary (c :: rest)
              = some ([c], rest.dropWhile isPySpace) by
            simp [specFirstBoundary, hb]] at h
        have hr : r = rest.dropWhile isPySpace := by
          cases h; rfl
        rw [hr, List.length_cons]
        exact Nat.lt_succ_of_le (List.Sublist.length_le (List.dropWhile_sublist _))
      · rw [show specFirstBoundary (c :: rest)
              = (match specFirstBoundary rest with
                 | none => none
                 | some (l, r) => some (c :: l, r)) by
            simp [specFirstBoundary, hb]] at h
        cases hsb : specFirstBoundary rest with
        | none => rw [hsb] at h; simp at h
        | some p =>
            obtain ⟨l', r'⟩ := p
            rw [hsb] at h
            have hr : r = r' := by cases h; rfl
            rw [hr, List.length_cons]
            exact Nat.lt_succ_of_lt (ih l' r' hsb)

/-- Modelled from the amended claim's words: the reference splitter.  Cut
the paragraph at its first boundary (keeping the period with the left
piece), strip the piece, drop it if empty, and continue after the
boundary's whitespace run; a paragraph with no boundary is emitted whole
(stripped), or dropped when blank. -/
def specSplit (cs : List Char) : List (List Char) :=
  match h : specFirstBoundary cs with
  | none => if (pyStrip cs).isEmpty then [] else [pyStrip cs]
  | some (l, r) =>
      (if (pyStrip l).isEmpty then [] else [pyStrip l]) ++ specSplit r
termination_by cs.length
decreasing_by exact specFirstBoundary_shrinks cs l r h

/-- Unfolding equation of the reference splitter. -/
theorem specSplit_eq (cs : List Char) :
    specSplit cs =
      match specFirstBoundary cs with
      | none => if (pyStrip cs).isEmpty then [] else [pyStrip cs]
      | some (l, r) =>
          (if (pyStrip l).isEmpty then [] else [pyStrip l]) ++ specSplit r := by
  cases hsb : specFirstBoundary cs with
  | none => rw [specSplit, hsb]
  | some p => obtain ⟨l, r⟩ := p; rw [specSplit, hsb]

/-- The source scan with pending slice `acc` computes exactly the
reference split of `acc.reverse ++ cs` in which the first cut can only
fall inside `cs` (the pending slice has already been scanned).  The
induction is on a length bound so that the boundary case can recurse on
the suffix after the whitespace run. -/
theorem splitLineAux_spec : ∀ (n : Nat) (cs : List Char), cs.length ≤ n →
    ∀ acc : List Char,
    splitLineAux false acc cs =
      (match specFirstBoundary cs with
       | none =>
           if (pyStrip (acc.reverse ++ cs)).isEmpty then []
           else [pyStrip (acc.reverse ++ cs)]
       | some (l, r) =>
           (if (pyStrip (acc.reverse ++ l)).isEmpty then []
            else [pyStrip (acc.reverse ++ l)]) ++ specSplit r) := by
  intro n
  induction n with
  | zero =>
      intro cs hlen acc
      have h0 : cs = [] := List.length_eq_zero.mp (Nat.le_zero.mp hlen)
      subst h0
      simp [splitLineAux, specFirstBoundary]
  | succ n ih =>
      intro cs hlen acc
      cases cs with
      | nil => simp [splitLineAux, specFirstBoundary]
      | cons c rest =>
          have hlen' : rest.length ≤ n := by
            rw [List.length_cons] at hlen
            omega
          by_cases hb : (c == '.' && boundaryAfterDot rest) = true
          · rw [show splitLineAux false acc (c :: rest)
                  = (if (pyStrip (acc.reverse ++ [c])).isEmpty then []
                     else [pyStrip (acc.reverse ++ [c])])
                    ++ splitLineAux true [] rest by
              simp [splitLineAux, hb]]
            rw [show specFirstBoundary (c :: rest)
                  = some ([c], rest.dropWhile isPySpace) by
              simp [specFirstBoundary, hb]]
            dsimp only
            have hup : startsUpperTrigger (rest.dropWhile isPySpace) = true := by
              have hbd : boundaryAfterDot rest = true :=
                (Bool.and_eq_true_iff.mp hb).2
              unfold boundaryAfterDot at hbd
              have hbd2 := (Bool.and_eq_true_iff.mp hbd).2
              rwa [drop_takeWhile_length] at hbd2
            rw [splitLineAux_skip rest hup]
            have hlen'' : (rest.dropWhile isPySpace).length ≤ n :=
              le_trans (List.Sublist.length_le (List.dropWhile_sublist _)) hlen'
            rw [ih (rest.dropWhile isPySpace) hlen'' [],
              specSplit_eq (rest.dropWhile isPySpace)]
            cases specFirstBoundary (rest.dropWhile isPySpace) with
            | none => simp
            | some p => obtain ⟨l, r⟩ := p; simp
          · rw [show splitLineAux false acc (c :: rest)
                  = splitLineAux false (c :: acc) rest by
              simp [splitLineAux, hb]]
            rw [ih rest hlen' (c :: acc)]
            rw [show specFirstBoundary (c :: rest)
                  = (match specFirstBoundary rest with
                     | none => none
                     | some (l, r) => some (c :: l, r)) by
              simp [specFirstBoundary, hb]]
            cases specFirstBoundary rest with
            | none => simp [List.reverse_cons, List.append_assoc]
            | some p =>
                obtain ⟨l, r⟩ := p
                simp [List.reverse_cons, List.append_assoc]

/-- The source paragraph splitter coincides with the reference splitter
on every paragraph. -/
theorem splitLine_eq_specSplit (cs : List Char) : splitLine cs = specSplit cs := by
  have h := splitLineAux_spec cs.length cs (le_refl _) []
  unfold splitLine
  rw [h, specSplit_eq cs]
  cases specFirstBoundary cs with
  | none => simp
  | some p => obtain ⟨l, r⟩ := p; simp

/-- C5 (amended): the segmenter locates sentence boundaries only at a
period followed by whitespace followed by one of the uppercase letters
`A`-`Z`, `Ä`, `Ö`, `Ü`, with no exception list (the boundary test never
looks at the characters before the period), and question/exclamation
marks never create boundaries: on every input the source splitter equals
the reference splitter built from exactly that boundary test.  The
concrete conjuncts pin the test down: no split without whitespace after
the period, none before a lowercase or non-`[A-ZÄÖÜ]` uppercase letter
(`É`), a split directly after the listed abbreviations `Art.`/`Nr.` and
after a bare number, and `?`/`!` inert inside a period-containing
paragraph. -/
theorem boundary_only_at_periods :
    (∀ text : String,
        split_text_into_sections text
          = (((splitLines text.data).map specSplit).flatten).map
              (fun cs => String.mk cs)) ∧
    split_text_into_sections "Hi.Du" = ["Hi.Du"] ∧
    split_text_into_sections "Ok. école gut." = ["Ok. école gut."] ∧
    split_text_into_sections "Ok. École gut." = ["Ok. École gut."] ∧
    split_text_into_sections "Art. Alles klar? Ja! Nr. 5. Gut."
      = ["Art.", "Alles klar? Ja! Nr. 5.", "Gut."] := by
  refine ⟨?_, by decide, by decide, by decide, by decide⟩
  intro text
  unfold split_text_into_sections
  have hmap : (splitLines text.data).map splitLine
      = (splitLines text.data).map specSplit :=
    List.map_congr_left fun l _ => splitLine_eq_specSplit l
  by_cases he : text.data.isEmpty = true
  · rw [if_pos he, List.isEmpty_iff.mp he]
    have h0 : specSplit ([] : List Char) = [] := by
      rw [specSplit_eq]
      rfl
    simp [splitLines, h0]
  · rw [if_neg he, hmap]

end Ultimate

namespace Ultimate

/-! ## Claim theorems about the classifier -/

/-- A query environment in which every lookup fails (models a ChromaDB or
embedding-model exception for every sentence). -/
def envUnused : AnalysisEnv :=
  ⟨fun _ => Except.error "query failed", fun _ => Except.error "query failed"⟩

/-- A query environment with fixed nearest-neighbour answers: sample
distance 5 (beyond the threshold 4) and minimal-requirements distance 3
(at most the threshold 4). -/
def envHit : AnalysisEnv :=
  ⟨fun _ => Except.ok ⟨5, "Beispielklausel"⟩,
   fun _ => Except.ok ⟨3, "Mindestanforderung"⟩⟩

/-- Every entry produced by the per-sentence step keeps the sentence as
its `text` field. -/
theorem processSentence_text (env : AnalysisEnv) (s : String) (e : ResultEntry)
    (h : processSentence env s = some e) : e.text = s := by
  unfold processSentence at h
  by_cases hlen : s.length < 40
  · rw [if_pos hlen] at h
    cases h
    rfl
  · rw [if_neg hlen] at h
    cases hq : env.sampleQuery s with
    | error err =>
        rw [hq] at h
        cases hm : env.minimalQuery s <;> rw [hm] at h <;> simp at h
    | ok sh =>
        rw [hq] at h
        cases hm : env.minimalQuery s with
        | error err => rw [hm] at h; simp at h
        | ok mh =>
            rw [hm] at h
            cases h
            rfl

/-- The texts of the loop-built entries form a subsequence of the input
sentences (order preserved, nothing reordered or invented). -/
theorem filterMap_text_sublist (env : AnalysisEnv) (l : List String) :
    ((l.filterMap (processSentence env)).map ResultEntry.text).Sublist l := by
  induction l with
  | nil => simp
  | cons a t ih =>
      cases hp : processSentence env a with
      | none =>
          rw [List.filterMap_cons_none hp]
          exact ih.cons a
      | some b =>
          rw [List.filterMap_cons_some hp, List.map_cons,
            processSentence_text env a b hp]
          exact ih.cons₂ a

/-- C1: for every sentence of length at least 40 that is classified
without error, the produced entry is in the output and its category is
the pair of labels from the two independent axes — `unusual` exactly when
the sample-agreement distance exceeds the threshold 4 (else
`match_found`), and `invalid` exactly when the minimal-requirements
distance is at or below 4 (else `valid`) — as a two-element list, never a
single collapsed tag. -/
theorem analyze_category_two_axes (env : AnalysisEnv) (sentences : List String)
    (s : String) (hmem : s ∈ sentences) (hlen : 40 ≤ s.length)
    (sh mh : QueryHit)
    (hs : env.sampleQuery s = Except.ok sh)
    (hm : env.minimalQuery s = Except.ok mh) :
    ∃ entry ∈ analyze_document_for_issues env sentences,
      entry.text = s ∧
      entry.category = CategoryField.list
        [(if 4 < sh.distance then "unusual" else "match_found"),
         (if mh.distance ≤ 4 then "invalid" else "valid")] := by
  have hproc : processSentence env s = some
      ⟨s, CategoryField.list
            [(if 4 < sh.distance then "unusual" else "match_found"),
             (if mh.distance ≤ 4 then "invalid" else "valid")],
          "", some sh.distance, some sh.document,
          some mh.distance, some mh.document⟩ := by
    unfold processSentence
    rw [if_neg (by omega : ¬ s.length < 40), hs, hm]
  have hmem2 : _ ∈ sentences.filterMap (processSentence env) :=
    List.mem_filterMap.mpr ⟨s, hmem, hproc⟩
  have hsne : ¬ sentences.isEmpty = true := by
    cases sentences with
    | nil => exact absurd hmem (List.not_mem_nil s)
    | cons a t => simp
  have hrne : ¬ (sentences.filterMap (processSentence env)).isEmpty = true := by
    intro h0
    rw [List.isEmpty_iff.mp h0] at hmem2
    exact absurd hmem2 (List.not_mem_nil _)
  unfold analyze_document_for_issues
  rw [if_neg hsne, if_neg hrne]
  exact ⟨_, hmem2, rfl, rfl⟩

/-- C1, witness: with sample distance 5 and minimal distance 3 a 40
character sentence is labelled `["unusual", "invalid"]`. -/
theorem analyze_category_two_axes_witness :
    ∃ entry ∈ analyze_document_for_issues envHit
        ["0123456789012345678901234567890123456789"],
      entry.text = "0123456789012345678901234567890123456789" ∧
      entry.category = CategoryField.list ["unusual", "invalid"] := by
  have h := analyze_category_two_axes envHit
    ["0123456789012345678901234567890123456789"]
    "0123456789012345678901234567890123456789"
    (List.mem_singleton.mpr rfl) (by decide)
    ⟨5, "Beispielklausel"⟩ ⟨3, "Mindestanforderung"⟩ rfl rfl
  rw [if_pos (by norm_num : (4:ℚ) < 5), if_pos (by norm_num : (3:ℚ) ≤ 4)] at h
  exact h

/-- C2.  Code-bug evidence: both sentinel entries carry the bare string
`"fehlend"` as their `category` (a `CategoryField.single`, not a list of
strings as the output contract and the loop entries have): evaluated at
the empty sentence list, and at a 40-character sentence whose
classification fails so that no loop entry survives. -/
theorem sentinel_category_bare_string :
    analyze_document_for_issues envUnused [] =
      [⟨"Keine S√§tze zum Analysieren gefunden.",
        CategoryField.single "fehlend",
        "Das Dokument enth√§lt keinen Text oder konnte nicht gelesen werden.",
        none, none, none, none⟩] ∧
    analyze_document_for_issues envUnused
        ["0123456789012345678901234567890123456789"] =
      [⟨"Keine problematischen Klauseln gefunden.",
        CategoryField.single "fehlend",
        "Der Mietvertrag enth√§lt keine offensichtlich problematischen Bestimmungen.",
        none, none, none, none⟩] := by
  exact ⟨rfl, by decide⟩

/-- C6: every sentence shorter than 40 characters is passed through with
an empty category list (not an error, not dropped), and the output
entries keep the document's original order: their texts form a
subsequence of the input sentences. -/
theorem short_segments_passed_through (env : AnalysisEnv)
    (sentences : List String)
    (h : ∃ s ∈ sentences, s.length < 40) :
    (∀ s ∈ sentences, s.length < 40 →
       (⟨s, CategoryField.list [], "", none, none, none, none⟩ : ResultEntry)
         ∈ analyze_document_for_issues env sentences) ∧
    ((analyze_document_for_issues env sentences).map ResultEntry.text).Sublist
      sentences := by
  obtain ⟨s0, hs0, hlen0⟩ := h
  have hproc0 : processSentence env s0 = some
      ⟨s0, CategoryField.list [], "", none, none, none, none⟩ := by
    unfold processSentence
    rw [if_pos hlen0]
  have hmem0 : _ ∈ sentences.filterMap (processSentence env) :=
    List.mem_filterMap.mpr ⟨s0, hs0, hproc0⟩
  have hsne : ¬ sentences.isEmpty = true := by
    cases sentences with
    | nil => exact absurd hs0 (List.not_mem_nil s0)
    | cons a t => simp
  have hrne : ¬ (sentences.filterMap (processSentence env)).isEmpty = true := by
    intro h0
    rw [List.isEmpty_iff.mp h0] at hmem0
    exact absurd hmem0 (List.not_mem_nil _)
  have heq : analyze_document_for_issues env sentences
      = sentences.filterMap (processSentence env) := by
    unfold analyze_document_for_issues
    rw [if_neg hsne, if_neg hrne]
  constructor
  · intro s hs hlen
    rw [heq]
    exact List.mem_filterMap.mpr ⟨s, hs, by unfold processSentence; rw [if_pos hlen]⟩
  · rw [heq]
    exact filterMap_text_sublist env sentences

/-- C6, witness: the 4-character sentence `"kurz"` is passed through with
an empty category list, in order. -/
theorem short_segments_passed_through_witness :
    (⟨"kurz", CategoryField.list [], "", none, none, none, none⟩ : ResultEntry)
      ∈ analyze_document_for_issues envUnused ["kurz"] ∧
    ((analyze_document_for_issues envUnused ["kurz"]).map
        ResultEntry.text).Sublist ["kurz"] := by
  have h := short_segments_passed_through envUnused ["kurz"]
    ⟨"kurz", List.mem_singleton.mpr rfl, by decide⟩
  exact ⟨h.1 "kurz" (List.mem_singleton.mpr rfl) (by decide), h.2⟩

/-- C7: the classifier never returns an empty list — the empty sentence
list gets the first sentinel, and when every sentence is filtered out or
fails classification the single second sentinel is synthesised. -/
theorem results_never_empty (env : AnalysisEnv) (sentences : List String) :
    analyze_document_for_issues env sentences ≠ [] ∧
    (sentences ≠ [] → (∀ s ∈ sentences, processSentence env s = none) →
      analyze_document_for_issues env sentences =
        [⟨"Keine problematischen Klauseln gefunden.",
          CategoryField.single "fehlend",
          "Der Mietvertrag enth√§lt keine offensichtlich problematischen Bestimmungen.",
          none, none, none, none⟩]) := by
  constructor
  · unfold analyze_document_for_issues
    by_cases h1 : sentences.isEmpty = true
    · rw [if_pos h1]; simp
    · rw [if_neg h1]
      by_cases h2 : (sentences.filterMap (processSentence env)).isEmpty = true
      · rw [if_pos h2]; simp
      · rw [if_neg h2]
        intro hc
        exact h2 (List.isEmpty_iff.mpr hc)
  · intro hne hall
    have h1 : ¬ sentences.isEmpty = true := fun he => hne (List.isEmpty_iff.mp he)
    have h2 : (sentences.filterMap (processSentence env)).isEmpty = true :=
      List.isEmpty_iff.mpr (List.filterMap_eq_nil_iff.mpr hall)
    unfold analyze_document_for_issues
    rw [if_neg h1, if_pos h2]

/-- C7, witness: one 41-character sentence whose classification fails
yields exactly the second sentinel, hence a non-empty result list. -/
theorem results_never_empty_witness :
    analyze_document_for_issues envUnused
        ["0123456789012345678901234567890123456789x"] ≠ [] ∧
    analyze_document_for_issues envUnused
        ["0123456789012345678901234567890123456789x"] =
      [⟨"Keine problematischen Klauseln gefunden.",
        CategoryField.single "fehlend",
        "Der Mietvertrag enth√§lt keine offensichtlich problematischen Bestimmungen.",
        none, none, none, none⟩] := by
  have h := results_never_empty envUnused
    ["0123456789012345678901234567890123456789x"]
  refine ⟨h.1, h.2 (by simp) ?_⟩
  intro s hs
  rw [List.mem_singleton.mp hs]
  decide

end Ultimate

namespace Ultimate

/-! ## Claim theorems about the corpora loader and the essentials extractor -/

/-- C8: whatever the per-file extraction outcomes, the clause list
embedded into a collection is never empty; in particular, when the
combined extraction yields zero clauses the non-empty hard-coded default
set of the collection is used. -/
theorem populate_collection_never_empty (collection_name : String)
    (extracted : List (Option (List String))) :
    populate_collection collection_name extracted ≠ [] ∧
    ((extracted.filterMap id).flatten = [] →
      populate_collection collection_name extracted =
        (if collection_name == "minimal_requirements" then
          minimalRequirementsDefaults
         else sampleAgreementDefaults)) := by
  unfold populate_collection
  by_cases h : ((extracted.filterMap id).flatten).isEmpty = true
  · rw [if_pos h]
    constructor
    · by_cases hn : (collection_name == "minimal_requirements") = true
      · rw [if_pos hn]; simp [minimalRequirementsDefaults]
      · rw [if_neg hn]; simp [sampleAgreementDefaults]
    · intro _; rfl
  · rw [if_neg h]
    constructor
    · exact fun hc => h (List.isEmpty_iff.mpr hc)
    · intro h0
      exact absurd (List.isEmpty_iff.mpr h0) h

/-- C8, witness: rebuilding `minimal_requirements` from one missing file
and one file whose extraction produced no clauses yields the three
hard-coded default clauses, a non-empty collection. -/
theorem populate_collection_never_empty_witness :
    populate_collection "minimal_requirements" [none, some []] ≠ [] ∧
    populate_collection "minimal_requirements" [none, some []]
      = minimalRequirementsDefaults := by
  have h := populate_collection_never_empty "minimal_requirements"
    [none, some []]
  refine ⟨h.1, ?_⟩
  have h2 := h.2 (by decide)
  rw [h2]
  rfl

/-- A model of `json.loads` for the essentials witnesses: it parses the
literal `null` (as Python's `json.loads("null")` does) and raises a
`JSONDecodeError` on everything else. -/
def loadsNull : String → Except String Json := fun s =>
  if s = "null" then Except.ok Json.null
  else Except.error "Expecting value: line 1 column 1 (char 0)"

/-- C9: `analyze_essentials` never lets an exception escape — a service
failure becomes the error-status record, a JSON parse failure becomes the
error record carrying the raw response text, and when the fenced marker
occurs the fence is stripped before parsing (demonstrated on a fenced
response, whose parse input is exactly the fenced payload). -/
theorem essentials_error_handling (loads : String → Except String Json)
    (t e errmsg : String) :
    analyze_essentials loads (Except.error e) =
      Json.obj
        [("analysis",
          Json.str "Fehler bei der Analyse der wesentlichen Vertragsinhalte."),
         ("status", Json.str "error"),
         ("error", Json.str e)] ∧
    (loads (extractJsonStr t) = Except.error errmsg →
      analyze_essentials loads (Except.ok t) =
        Json.obj
          [("error", Json.str "Invalid JSON response from OpenAI"),
           ("response", Json.str t)]) ∧
    extractJsonStr "```json\nnull\n```" = "null" := by
  refine ⟨rfl, ?_, by decide⟩
  intro hp
  simp only [analyze_essentials, hp]

/-- C9, witness: a failing service call and an unparsable response each
produce the corresponding error record. -/
theorem essentials_error_handling_witness :
    analyze_essentials loadsNull (Except.error "Connection error.") =
      Json.obj
        [("analysis",
          Json.str "Fehler bei der Analyse der wesentlichen Vertragsinhalte."),
         ("status", Json.str "error"),
         ("error", Json.str "Connection error.")] ∧
    analyze_essentials loadsNull (Except.ok "Es tut mir leid.") =
      Json.obj
        [("error", Json.str "Invalid JSON response from OpenAI"),
         ("response", Json.str "Es tut mir leid.")] := by
  have h := essentials_error_handling loadsNull "Es tut mir leid."
    "Connection error." "Expecting value: line 1 column 1 (char 0)"
  exact ⟨h.1, h.2.1 rfl⟩

/-- A model of `json.loads` for the no-validation witness: it parses the
object text with the single key `foo` (as Python's
`json.loads` does on that input) and raises a `JSONDecodeError` on
everything else. -/
def loadsFoo : String → Except String Json := fun s =>
  if s = "\x7b\"foo\": null\x7d" then
    Except.ok (Json.obj [("foo", Json.null)])
  else Except.error "Expecting value: line 1 column 1 (char 0)"

/-- C10: a successfully parsed response is returned unchanged, with no
schema validation — a response object with the single key `foo` comes
back as-is, lacking all four of `vertragsparteien`, `mietgegenstand`,
`miete` and `mietbeginn`, and none of them is defaulted to null. -/
theorem essentials_no_schema_validation :
    analyze_essentials loadsFoo (Except.ok "\x7b\"foo\": null\x7d") =
      Json.obj [("foo", Json.null)] ∧
    jsonKeys (analyze_essentials loadsFoo (Except.ok "\x7b\"foo\": null\x7d"))
      = ["foo"] ∧
    "vertragsparteien" ∉
      jsonKeys (analyze_essentials loadsFoo (Except.ok "\x7b\"foo\": null\x7d")) ∧
    "mietgegenstand" ∉
      jsonKeys (analyze_essentials loadsFoo (Except.ok "\x7b\"foo\": null\x7d")) ∧
    "miete" ∉
      jsonKeys (analyze_essentials loadsFoo (Except.ok "\x7b\"foo\": null\x7d")) ∧
    "mietbeginn" ∉
      jsonKeys (analyze_essentials loadsFoo (Except.ok "\x7b\"foo\": null\x7d")) := by
  refine ⟨rfl, rfl, ?_, ?_, ?_, ?_⟩ <;> decide

end Ultimate
